import Mathlib

/-!
Shallow embedding of `src/main.py`, a Telegram bot that receives a URL in a
chat message, rewrites Google Drive share links to direct-download form,
streams the file to a local path with throttled progress reporting, uploads it
back to the chat, and removes the local file.

Modelling conventions:
* Python strings are modelled as `List Char`; byte strings as `List Nat`.
* The event-loop clock (`asyncio.get_event_loop().time()`, a float) is
  modelled as `ℚ`; each streamed chunk carries the clock value observed when
  it is processed.
* External collaborators (aiohttp responses, Telegram API outcomes, `hashlib`,
  `mimetypes`) are inputs to the embedded functions: a `Response` records the
  HTTP status, the optional `content_length` header and the chunk stream; an
  `Env` records which exception, if any, each Telegram/network call raises.
* `int(downloaded * 100 / total)` on non-negative operands is modelled as
  exact floor division on `Nat` (the float division is treated as exact).
-/

namespace Bot

/-! ### Link normalizer (src/main.py lines 31-34 and 76-80) -/

/-- Characters admitted by the regex character class `[a-zA-Z0-9_-]` in
`GDRIVE_REGEX` (src/main.py line 32). -/
def isIdChar (c : Char) : Bool := c.isAlphanum || c == '_' || c == '-'

/-- The string `"http"`, used by the handler's dispatch filter
(`F.text.startswith("http")`, line 74) and its validity re-check (line 82). -/
def httpStr : List Char := "http".data

/-- The literal head of `GDRIVE_REGEX` up to the capturing group
(src/main.py line 32). -/
def gdriveHead : List Char := "https://drive.google.com/file/d/".data

/-- The direct-download URL `GDRIVE_DIRECT` (line 34) up to the interpolated
id. -/
def gdriveDirectHead : List Char := "https://drive.google.com/uc?export=download&id=".data

/-- Python's `s.startswith(p)` restated on character lists: `startsWith p s`
is true when `p` is an initial segment of `s`. -/
def startsWith : List Char → List Char → Bool
  | [], _ => true
  | _ :: _, [] => false
  | c :: p, d :: s => c == d && startsWith p s

/-- Semantics of `GDRIVE_REGEX.match(url)` (line 77), returning the captured
group when the regex matches.

The regex is `https://drive\.google\.com/file/d/([a-zA-Z0-9_-]+)/(?:[^?]*)(?:\?.*)?`.
`re.match` anchors at the start of the string only.  The tail
`(?:[^?]*)(?:\?.*)?` matches every string, including the empty one (split the
remainder at its first `?`), and `re.match` does not require the whole string
to be consumed. The capturing group is greedy over a class that excludes `/`,
so backtracking cannot shorten it: the regex matches exactly when the url
starts with the literal head followed by a non-empty run of id characters
followed by `/`, and the group is that maximal run. -/
def gdriveMatch (url : List Char) : Option (List Char) :=
  if startsWith gdriveHead url then
    let rest := url.drop gdriveHead.length
    let fid := rest.takeWhile isIdChar
    if fid.isEmpty then none
    else
      match rest.drop fid.length with
      | '/' :: _ => some fid
      | _ => none
  else none

/-- Lines 77-80 of `handle_link`: rewrite a Drive share link to
`GDRIVE_DIRECT.format(file_id)`, leave any other url unchanged. -/
def normalize (url : List Char) : List Char :=
  match gdriveMatch url with
  | some fid => gdriveDirectHead ++ fid
  | none => url

/-- Python's `str.strip()` (line 76): remove whitespace from both ends. -/
def pyStrip (s : List Char) : List Char :=
  ((s.dropWhile Char.isWhitespace).reverse.dropWhile Char.isWhitespace).reverse

/-! ### Helper lemmas about `startsWith`, `takeWhile`, `pyStrip` -/

theorem startsWith_append (p t : List Char) : startsWith p (p ++ t) = true := by
  induction p with
  | nil => rfl
  | cons c p ih => simp [startsWith, ih]

theorem startsWith_iff (p s : List Char) :
    startsWith p s = true ↔ ∃ t, s = p ++ t := by
  induction p generalizing s with
  | nil => simp [startsWith]
  | cons c p ih =>
    cases s with
    | nil => simp [startsWith]
    | cons d s =>
      simp only [startsWith, Bool.and_eq_true, beq_iff_eq, ih]
      constructor
      · rintro ⟨rfl, t, rfl⟩
        exact ⟨t, rfl⟩
      · rintro ⟨t, h⟩
        have hc : c = d := by injection h with h1 _; exact h1.symm
        have hs : s = p ++ t := by injection h with _ h2
        exact ⟨hc, t, hs⟩

theorem takeWhile_append_stop (f : Char → Bool) (fid : List Char) (c : Char)
    (tail : List Char) (hall : ∀ x ∈ fid, f x = true) (hc : f c = false) :
    (fid ++ c :: tail).takeWhile f = fid := by
  induction fid with
  | nil => simp [List.takeWhile, hc]
  | cons a fid ih =>
    have ha : f a = true := hall a (by simp)
    simp only [List.cons_append, List.takeWhile, ha]
    have := ih (fun x hx => hall x (by simp [hx]))
    simp [this]

/-- On a matching share link the embedded regex captures exactly the id run. -/
theorem gdriveMatch_pos (fid tail : List Char) (hne : fid ≠ [])
    (hall : ∀ x ∈ fid, isIdChar x = true) :
    gdriveMatch (gdriveHead ++ fid ++ '/' :: tail) = some fid := by
  have h1 : startsWith gdriveHead (gdriveHead ++ (fid ++ '/' :: tail)) = true :=
    startsWith_append _ _
  have hslash : isIdChar '/' = false := by decide
  have hemp : fid.isEmpty = false := by
    cases fid with
    | nil => exact absurd rfl hne
    | cons a l => rfl
  unfold gdriveMatch
  rw [List.append_assoc, h1]
  simp only [List.drop_left]
  rw [takeWhile_append_stop isIdChar fid '/' tail hall hslash, hemp]
  simp [List.drop_left]

theorem rstrip_http (t : List Char) :
    ∃ t2, ((httpStr ++ t).reverse.dropWhile Char.isWhitespace).reverse
      = httpStr ++ t2 := by
  induction t using List.reverseRecOn with
  | nil => exact ⟨[], by decide⟩
  | append_singleton xs x ih =>
    rw [← List.append_assoc, List.reverse_append, List.reverse_singleton,
      List.singleton_append, List.dropWhile_cons]
    by_cases hw : x.isWhitespace = true
    · obtain ⟨t2, ht2⟩ := ih
      refine ⟨t2, ?_⟩
      rw [if_pos hw]
      exact ht2
    · refine ⟨xs ++ [x], ?_⟩
      rw [if_neg hw, List.reverse_cons, List.reverse_reverse, List.append_assoc]

theorem pyStrip_http (t : List Char) :
    ∃ t2, pyStrip (httpStr ++ t) = httpStr ++ t2 := by
  have hh : Char.isWhitespace 'h' = false := by decide
  have hlead : (httpStr ++ t).dropWhile Char.isWhitespace = httpStr ++ t := by
    have he : httpStr ++ t = 'h' :: ("ttp".data ++ t) := rfl
    rw [he, List.dropWhile_cons, hh]
    simp
  unfold pyStrip
  rw [hlead]
  exact rstrip_http t

theorem normalize_eq_of_match (url fid : List Char)
    (h : gdriveMatch url = some fid) :
    normalize url = gdriveDirectHead ++ fid := by
  unfold normalize
  rw [h]

theorem normalize_eq_of_none (url : List Char) (h : gdriveMatch url = none) :
    normalize url = url := by
  unfold normalize
  rw [h]

theorem normalize_keeps_http (url : List Char)
    (h : startsWith httpStr url = true) :
    startsWith httpStr (normalize url) = true ∧ normalize url ≠ [] := by
  cases hm : gdriveMatch url with
  | none =>
    rw [normalize_eq_of_none url hm]
    refine ⟨h, ?_⟩
    obtain ⟨t, rfl⟩ := (startsWith_iff _ _).1 h
    simp [httpStr]
  | some fid =>
    rw [normalize_eq_of_match url fid hm]
    have hd : gdriveDirectHead
        = httpStr ++ "s://drive.google.com/uc?export=download&id=".data := by
      decide
    constructor
    · rw [hd, List.append_assoc]
      exact startsWith_append _ _
    · simp [gdriveDirectHead]

/-! ### Streaming downloader (src/main.py lines 43-65) -/

/-- One streamed HTTP response, as `download_file` observes it through
aiohttp: the status, the optional `Content-Length` header
(`resp.content_length`), and the chunk stream produced by
`resp.content.iter_chunked(CHUNK_SIZE)`. Each chunk carries its byte payload
and the event-loop clock value read while processing it (line 60). -/
structure Response where
  status : Nat
  content_length : Option Nat
  chunks : List (List Nat × ℚ)
  deriving DecidableEq

/-- Mutable local state of the download loop in `download_file`
(lines 51-65), extended with the written file contents and the trace of
progress-callback invocations `(percent, clock)` in order. -/
structure DlState where
  downloaded : Nat
  last_update : ℚ
  last_percent : Nat
  file : List Nat
  reports : List (Nat × ℚ)
  deriving DecidableEq

/-- Initial loop state: `downloaded = 0`, `last_update = 0.0`,
`last_percent = 0` (lines 52-54), empty file (opened `"wb"`), no reports. -/
def initState : DlState := ⟨0, 0, 0, [], []⟩

/-- Body of `async for chunk in resp.content.iter_chunked(...)`
(lines 56-65): write the chunk, add its length, and when a callback was
supplied and the total is non-zero, compute
`percent = int(downloaded * 100 / total)` and invoke the callback when
`now - last_update >= 1.0 or percent != last_percent`. -/
def processChunk (total : Nat) (hasCb : Bool) (s : DlState)
    (c : List Nat × ℚ) : DlState :=
  let downloaded := s.downloaded + c.1.length
  let file := s.file ++ c.1
  if hasCb = true ∧ total ≠ 0 then
    let now := c.2
    let percent := downloaded * 100 / total
    if 1 ≤ now - s.last_update ∨ percent ≠ s.last_percent then
      ⟨downloaded, now, percent, file, s.reports ++ [(percent, now)]⟩
    else
      ⟨downloaded, s.last_update, s.last_percent, file, s.reports⟩
  else
    ⟨downloaded, s.last_update, s.last_percent, file, s.reports⟩

/-- `download_file(url, dest_path, progress_cb)` (lines 46-65).
`Except.error s` models `raise DownloadError(f"HTTP {s}")`, which happens
before the destination file is opened; `total = resp.content_length or 0`. -/
def download_file (hasCb : Bool) (resp : Response) : Except Nat DlState :=
  if resp.status ≠ 200 then Except.error resp.status
  else Except.ok
    (resp.chunks.foldl (processChunk (resp.content_length.getD 0) hasCb) initState)

/-- Concatenation of the byte payloads of a chunk stream. -/
def concatBytes : List (List Nat × ℚ) → List Nat
  | [] => []
  | c :: r => c.1 ++ concatBytes r

/-- Total byte length of a chunk stream. -/
def sumLen (l : List (List Nat × ℚ)) : Nat := (l.map fun c => c.1.length).sum

/-- Per-chunk report trace of the same download loop (lines 52-65),
carried chunk by chunk: the entry for each streamed chunk is the
`(percent, clock)` pair passed to the progress callback while processing
that chunk, or `none` when the callback was not invoked there. The
accumulator arguments are the loop cells `downloaded`, `last_update`,
`last_percent` of lines 52-54, updated on a callback invocation exactly as
on lines 63-65. `foldl_reports_trace` below proves that `download_file`
emits precisely the `some` entries of this trace, in order. -/
def chunkReports (total : Nat) (hasCb : Bool) :
    Nat → ℚ → Nat → List (List Nat × ℚ) → List (Option (Nat × ℚ))
  | _, _, _, [] => []
  | downloaded0, last_update, last_percent, c :: rest =>
    let downloaded := downloaded0 + c.1.length
    if hasCb = true ∧ total ≠ 0 then
      let now := c.2
      let percent := downloaded * 100 / total
      if 1 ≤ now - last_update ∨ percent ≠ last_percent then
        some (percent, now) :: chunkReports total hasCb downloaded now percent rest
      else
        none :: chunkReports total hasCb downloaded last_update last_percent rest
    else
      none :: chunkReports total hasCb downloaded last_update last_percent rest

/-- Relation between two consecutive progress reports: the percent does not
decrease, and the later one was emitted because at least one second elapsed
or the percent changed. -/
def reportRel (a b : Nat × ℚ) : Prop := a.1 ≤ b.1 ∧ (1 ≤ b.2 - a.2 ∨ b.1 ≠ a.1)

/-! ### Step-by-step facts about `processChunk` -/

theorem processChunk_file (total : Nat) (hasCb : Bool) (s : DlState)
    (c : List Nat × ℚ) :
    (processChunk total hasCb s c).file = s.file ++ c.1 := by
  unfold processChunk
  dsimp only
  split
  · split
    · rfl
    · rfl
  · rfl

theorem processChunk_downloaded (total : Nat) (hasCb : Bool) (s : DlState)
    (c : List Nat × ℚ) :
    (processChunk total hasCb s c).downloaded = s.downloaded + c.1.length := by
  unfold processChunk
  dsimp only
  split
  · split
    · rfl
    · rfl
  · rfl

theorem processChunk_reports_zero (hasCb : Bool) (s : DlState)
    (c : List Nat × ℚ) :
    (processChunk 0 hasCb s c).reports = s.reports := by
  unfold processChunk
  split
  · rename_i h
    exact absurd rfl h.2
  · rfl

/-! ### Fold-level facts about the download loop -/

theorem foldl_file (total : Nat) (hasCb : Bool) :
    ∀ (l : List (List Nat × ℚ)) (s : DlState),
      (l.foldl (processChunk total hasCb) s).file = s.file ++ concatBytes l := by
  intro l
  induction l with
  | nil => intro s; simp [concatBytes]
  | cons c r ih =>
    intro s
    simp only [List.foldl_cons, concatBytes]
    rw [ih, processChunk_file, List.append_assoc]

theorem foldl_downloaded (total : Nat) (hasCb : Bool) :
    ∀ (l : List (List Nat × ℚ)) (s : DlState),
      (l.foldl (processChunk total hasCb) s).downloaded
        = s.downloaded + sumLen l := by
  intro l
  induction l with
  | nil => intro s; simp [sumLen]
  | cons c r ih =>
    intro s
    simp only [List.foldl_cons, sumLen, List.map_cons, List.sum_cons]
    rw [ih, processChunk_downloaded]
    simp [sumLen, Nat.add_assoc]

theorem foldl_reports_zero (hasCb : Bool) :
    ∀ (l : List (List Nat × ℚ)) (s : DlState),
      (l.foldl (processChunk 0 hasCb) s).reports = s.reports := by
  intro l
  induction l with
  | nil => intro s; rfl
  | cons c r ih =>
    intro s
    simp only [List.foldl_cons]
    rw [ih, processChunk_reports_zero]

theorem sumLen_cons (c : List Nat × ℚ) (l : List (List Nat × ℚ)) :
    sumLen (c :: l) = c.1.length + sumLen l := by
  simp [sumLen]

/-- The reports accumulated by the download loop are exactly the `some`
entries of the per-chunk trace started from the loop's current cells. -/
theorem foldl_reports_trace (total : Nat) (hasCb : Bool) :
    ∀ (l : List (List Nat × ℚ)) (s : DlState),
      (l.foldl (processChunk total hasCb) s).reports
        = s.reports ++ (chunkReports total hasCb s.downloaded s.last_update
            s.last_percent l).reduceOption := by
  intro l
  induction l with
  | nil => intro s; simp [chunkReports, List.reduceOption]
  | cons c r ih =>
    intro s
    simp only [List.foldl_cons]
    rw [ih]
    simp only [chunkReports]
    unfold processChunk
    dsimp only
    by_cases h1 : hasCb = true ∧ total ≠ 0
    · rw [if_pos h1, if_pos h1]
      by_cases h2 : 1 ≤ c.2 - s.last_update
          ∨ (s.downloaded + c.1.length) * 100 / total ≠ s.last_percent
      · rw [if_pos h2, if_pos h2]
        simp [List.reduceOption_cons_of_some, List.append_assoc]
      · rw [if_neg h2, if_neg h2]
        simp [List.reduceOption_cons_of_none]
    · rw [if_neg h1, if_neg h1]
      simp [List.reduceOption_cons_of_none]

/-- An entry `some (p, t)` at position `i` of the per-chunk trace is a
callback invocation made while processing chunk `i`: its percent is the
floor formula of the cumulative byte count through that chunk and its clock
is that chunk's clock. -/
theorem chunkReports_entry (total : Nat) (hasCb : Bool) :
    ∀ (l : List (List Nat × ℚ)) (d0 : Nat) (u0 : ℚ) (p0 : Nat) (i : Nat)
      (p : Nat) (t : ℚ),
      (chunkReports total hasCb d0 u0 p0 l).get? i = some (some (p, t)) →
      p = (d0 + sumLen (l.take (i + 1))) * 100 / total
      ∧ ∃ c, l.get? i = some c ∧ t = c.2 := by
  intro l
  induction l with
  | nil =>
    intro d0 u0 p0 i p t h
    simp [chunkReports] at h
  | cons c r ih =>
    intro d0 u0 p0 i p t h
    unfold chunkReports at h
    dsimp only at h
    by_cases h1 : hasCb = true ∧ total ≠ 0
    · rw [if_pos h1] at h
      by_cases h2 : 1 ≤ c.2 - u0 ∨ (d0 + c.1.length) * 100 / total ≠ p0
      · rw [if_pos h2] at h
        cases i with
        | zero =>
          simp only [List.get?_cons_zero, Option.some.injEq, Prod.mk.injEq] at h
          refine ⟨?_, c, rfl, h.2.symm⟩
          rw [← h.1, List.take_succ_cons, List.take_zero, sumLen_cons]
          simp [sumLen]
        | succ i =>
          simp only [List.get?_cons_succ] at h
          have hr := ih (d0 + c.1.length) c.2 ((d0 + c.1.length) * 100 / total)
            i p t h
          refine ⟨?_, ?_⟩
          · rw [hr.1, List.take_succ_cons, sumLen_cons, Nat.add_assoc]
          · obtain ⟨cc, hc, hT⟩ := hr.2
            exact ⟨cc, by simpa using hc, hT⟩
      · rw [if_neg h2] at h
        cases i with
        | zero => simp at h
        | succ i =>
          simp only [List.get?_cons_succ] at h
          have hr := ih (d0 + c.1.length) u0 p0 i p t h
          refine ⟨?_, ?_⟩
          · rw [hr.1, List.take_succ_cons, sumLen_cons, Nat.add_assoc]
          · obtain ⟨cc, hc, hT⟩ := hr.2
            exact ⟨cc, by simpa using hc, hT⟩
    · rw [if_neg h1] at h
      cases i with
      | zero => simp at h
      | succ i =>
        simp only [List.get?_cons_succ] at h
        have hr := ih (d0 + c.1.length) u0 p0 i p t h
        refine ⟨?_, ?_⟩
        · rw [hr.1, List.take_succ_cons, sumLen_cons, Nat.add_assoc]
        · obtain ⟨cc, hc, hT⟩ := hr.2
          exact ⟨cc, by simpa using hc, hT⟩

theorem percent_mono (total a b : Nat) (h : a ≤ b) :
    a * 100 / total ≤ b * 100 / total :=
  Nat.div_le_div_right (Nat.mul_le_mul_right 100 h)

/-- Loop invariant of the download loop: the report trace is chained by
`reportRel`, the `last_percent` / `last_update` cells mirror the last report
(or their initial zeroes), and `last_percent` never exceeds the percent of
the current byte count. -/
structure DlInv (total : Nat) (s : DlState) : Prop where
  chain : List.Chain' reportRel s.reports
  lastp : s.last_percent = ((s.reports.getLast?).map Prod.fst).getD 0
  lastu : s.last_update = ((s.reports.getLast?).map Prod.snd).getD 0
  mono : s.last_percent ≤ s.downloaded * 100 / total

theorem initState_inv (total : Nat) : DlInv total initState := by
  refine ⟨List.chain'_nil, rfl, rfl, ?_⟩
  simp [initState]

theorem processChunk_inv (total : Nat) (hasCb : Bool) (s : DlState)
    (c : List Nat × ℚ) (h : DlInv total s) :
    DlInv total (processChunk total hasCb s c) := by
  have hmono2 : s.last_percent ≤ (s.downloaded + c.1.length) * 100 / total :=
    le_trans h.mono (percent_mono total _ _ (Nat.le_add_right _ _))
  unfold processChunk
  dsimp only
  split
  · split
    · rename_i hrep
      refine ⟨?_, ?_, ?_, le_refl _⟩
      · rw [List.chain'_append]
        refine ⟨h.chain, List.chain'_singleton _, ?_⟩
        intro x hx y hy
        simp only [List.head?_cons, Option.mem_def, Option.some.injEq] at hy
        subst hy
        have hx' : s.reports.getLast? = some x := hx
        have hp : s.last_percent = x.1 := by rw [h.lastp, hx']; rfl
        have hu : s.last_update = x.2 := by rw [h.lastu, hx']; rfl
        constructor
        · rw [← hp]; exact hmono2
        · rw [← hp, ← hu]; exact hrep
      · rw [List.getLast?_concat]; rfl
      · rw [List.getLast?_concat]; rfl
    · exact ⟨h.chain, h.lastp, h.lastu, hmono2⟩
  · exact ⟨h.chain, h.lastp, h.lastu, hmono2⟩

theorem foldl_inv (total : Nat) (hasCb : Bool) :
    ∀ (l : List (List Nat × ℚ)) (s : DlState), DlInv total s →
      DlInv total (l.foldl (processChunk total hasCb) s) := by
  intro l
  induction l with
  | nil => intro s h; exact h
  | cons c r ih =>
    intro s h
    exact ih _ (processChunk_inv total hasCb s c h)

/-- Every report in the trace carries a percent of the form
`d * 100 / total` for some byte count `d` not exceeding the bytes downloaded
so far. -/
def ReportsShape (total : Nat) (s : DlState) : Prop :=
  ∀ pt ∈ s.reports, ∃ d, d ≤ s.downloaded ∧ pt.1 = d * 100 / total

theorem processChunk_shape (total : Nat) (hasCb : Bool) (s : DlState)
    (c : List Nat × ℚ) (h : ReportsShape total s) :
    ReportsShape total (processChunk total hasCb s c) := by
  have hgrow : ∀ pt ∈ s.reports,
      ∃ d, d ≤ s.downloaded + c.1.length ∧ pt.1 = d * 100 / total := by
    intro pt hpt
    obtain ⟨d, hd, hp⟩ := h pt hpt
    exact ⟨d, le_trans hd (Nat.le_add_right _ _), hp⟩
  unfold ReportsShape processChunk
  dsimp only
  split
  · split
    · intro pt hpt
      rcases List.mem_append.1 hpt with hl | hr
      · exact hgrow pt hl
      · simp only [List.mem_singleton] at hr
        subst hr
        exact ⟨s.downloaded + c.1.length, le_refl _, rfl⟩
    · exact hgrow
  · exact hgrow

theorem foldl_shape (total : Nat) (hasCb : Bool) :
    ∀ (l : List (List Nat × ℚ)) (s : DlState), ReportsShape total s →
      ReportsShape total (l.foldl (processChunk total hasCb) s) := by
  intro l
  induction l with
  | nil => intro s h; exact h
  | cons c r ih =>
    intro s h
    exact ih _ (processChunk_shape total hasCb s c h)

/-! ### Progress reporter (src/main.py lines 94-98) -/

/-- Outcome of one `progress_msg.edit_text(...)` call, as raised by the
Telegram client: success, `TelegramRetryAfter` (rate limit),
`TelegramBadRequest`, or any other exception. -/
inductive EditOutcome where
  | ok
  | retryAfter
  | badRequest (msg : List Char)
  | otherError (msg : List Char)
  deriving DecidableEq

/-- `report_progress(percent)` (lines 94-98): attempt the status-message edit
and swallow `TelegramRetryAfter` only. The returned value is the exception
that escapes to the caller, if any. -/
def report_progress (percent : Nat) (edit : EditOutcome) : Option EditOutcome :=
  match percent, edit with
  | _, EditOutcome.ok => none
  | _, EditOutcome.retryAfter => none
  | _, e => some e

/-! ### Message handler / orchestrator (src/main.py lines 74-130) -/

/-- Outcome of the `await download_file(...)` call as seen inside
`handle_link` (lines 100-107). `DownloadError` (non-200 status) is raised
before the destination file is opened, so no file exists on that path; any
other exception may strike either before the file is opened (`fileCreated =
false`) or mid-stream after `aio_open(dest_path, "wb")` created it
(`fileCreated = true`). -/
inductive DownloadOutcome where
  | success
  | httpFail (status : Nat)
  | unexpected (fileCreated : Bool)
  deriving DecidableEq

/-- Outcome of the `bot.send_document(...)` call (lines 112-125):
success, `TelegramBadRequest` with its message text, or any other
exception. -/
inductive UploadOutcome where
  | ok
  | badRequest (msg : List Char)
  | unexpected (msg : List Char)
  deriving DecidableEq

/-- The external outcomes a single `handle_link` run observes. -/
structure Env where
  dl : DownloadOutcome
  ul : UploadOutcome
  deriving DecidableEq

/-- Stand-ins for the standard-library collaborators used on lines 86-89:
`hashlib.md5(url.encode()).hexdigest()` and the two `mimetypes` guesses.
They are deterministic functions supplied as parameters. -/
structure Libs where
  md5hex : List Char → List Char
  guessType : List Char → Option (List Char)
  guessExt : List Char → Option (List Char)

/-- `"application/octet-stream"`, the fallback MIME type on line 88. -/
def octetStream : List Char := "application/octet-stream".data

/-- `".bin"`, the fallback extension on line 89. -/
def binExt : List Char := ".bin".data

/-- `TMP_DIR` (line 20). -/
def TMP_DIR : List Char := "/tmp".data

/-- Lines 86-89: `safe_name = md5(url).hexdigest()[:12]` and
`ext = guess_extension(guess_type(url)[0] or "application/octet-stream")
or ".bin"`. -/
def deriveName (L : Libs) (url : List Char) : List Char :=
  let safe_name := (L.md5hex url).take 12
  let ext := (L.guessExt ((L.guessType url).getD octetStream)).getD binExt
  safe_name ++ ext

/-- Line 90: `file_path = os.path.join(TMP_DIR, f"{safe_name}{ext}")`. -/
def filePathFor (L : Libs) (url : List Char) : List Char :=
  TMP_DIR ++ '/' :: deriveName L url

/-- The arguments of the `bot.send_document` call (lines 112-117): the local
file, the url placed in the caption link, and the replied-to message id. -/
structure UploadCall where
  document : List Char
  caption_url : List Char
  reply_to : Nat
  deriving DecidableEq

/-- The successive texts written into the status message after the initial
"Starting download…" reply (progress edits from the callback aside). -/
inductive Edit where
  | downloadFailed (status : Nat)
  | unexpectedError
  | uploading
  | invalidFileURL
  | telegramError (msg : List Char)
  | uploadFailed
  deriving DecidableEq

/-- `"invalid file HTTP URL"`, the substring tested on line 120. -/
def invalidFileUrlMsg : List Char := "invalid file HTTP URL".data

/-- Python's `needle in hay` substring test on character lists. -/
def containsSub (needle : List Char) : List Char → Bool
  | [] => needle.isEmpty
  | c :: h => startsWith needle (c :: h) || containsSub needle h

/-- Observable result of one `handle_link` run: whether the
invalid-link-format reply was sent (line 83), whether the "Starting
download…" status message was sent (line 92), the later status edits, the
`send_document` call if one was made, and whether a file still exists at the
derived destination path after the handler returns. -/
structure HandlerResult where
  invalidReply : Bool
  startedDownload : Bool
  statusEdits : List Edit
  uploadCall : Option UploadCall
  fileExists : Bool
  deriving DecidableEq

/-- `handle_link(message)` (lines 74-130). Control flow mirrors the source:
the invalid-format guard returns early (lines 82-84); a `DownloadError` or
any other download exception edits the status and returns (lines 102-107)
without touching the file; only the upload `try` block (lines 110-130)
carries the `finally: os.remove(file_path)`. -/
def handle_link (L : Libs) (text : List Char) (msgId : Nat) (env : Env) :
    HandlerResult :=
  let url := normalize (pyStrip text)
  if url.isEmpty || !(startsWith httpStr url) then
    ⟨true, false, [], none, false⟩
  else
    let file_path := filePathFor L url
    match env.dl with
    | DownloadOutcome.httpFail s =>
        ⟨false, true, [Edit.downloadFailed s], none, false⟩
    | DownloadOutcome.unexpected created =>
        ⟨false, true, [Edit.unexpectedError], none, created⟩
    | DownloadOutcome.success =>
        let call : UploadCall := ⟨file_path, url, msgId⟩
        match env.ul with
        | UploadOutcome.ok =>
            ⟨false, true, [Edit.uploading], some call, false⟩
        | UploadOutcome.badRequest m =>
            let e := if containsSub invalidFileUrlMsg m then Edit.invalidFileURL
              else Edit.telegramError m
            ⟨false, true, [Edit.uploading, e], some call, false⟩
        | UploadOutcome.unexpected _ =>
            ⟨false, true, [Edit.uploading, Edit.uploadFailed], some call, false⟩

/-- A concrete `Libs` instance used for closed witnesses: a fixed 32-hex
digest, a type guess that always fails, and an extension table that maps the
octet-stream fallback to `".bin"`. -/
def libs0 : Libs :=
  ⟨fun _ => "0123456789abcdef0123456789abcdef".data,
   fun _ => none,
   fun _ => some ".bin".data⟩

/-! ### Claim theorems -/

/-- C2: every URL of the share-link shape
`https://drive.google.com/file/d/<ID>/...` (ID a non-empty run of letters,
digits, underscore, hyphen) normalizes to
`https://drive.google.com/uc?export=download&id=<ID>` with the captured id;
every URL the pattern does not match is returned unchanged; and the concrete
scenario input normalizes to the expected direct-download URL. -/
theorem C2_normalize_spec :
    (∀ fid tail, fid ≠ [] → (∀ c ∈ fid, isIdChar c = true) →
      normalize (gdriveHead ++ fid ++ '/' :: tail) = gdriveDirectHead ++ fid)
    ∧ (∀ url, gdriveMatch url = none → normalize url = url)
    ∧ normalize "https://drive.google.com/file/d/ABC123/view?usp=sharing".data
        = "https://drive.google.com/uc?export=download&id=ABC123".data := by
  refine ⟨?_, ?_, ?_⟩
  · intro fid tail hne hall
    exact normalize_eq_of_match _ fid (gdriveMatch_pos fid tail hne hall)
  · intro url h
    exact normalize_eq_of_none url h
  · decide

/-- Witness for C2 at concrete inputs: one matching link and one
non-matching link. -/
theorem C2_normalize_witness :
    normalize (gdriveHead ++ ['a'] ++ '/' :: "view".data)
        = gdriveDirectHead ++ ['a']
    ∧ normalize "http://example.com/file.bin".data
        = "http://example.com/file.bin".data :=
  ⟨C2_normalize_spec.1 ['a'] "view".data (by decide) (by decide),
   C2_normalize_spec.2.1 "http://example.com/file.bin".data (by decide)⟩

/-- C10: any message text accepted by the dispatch filter
(`F.text.startswith("http")`) survives stripping and normalization as a
non-empty string still starting with `http`, so `handle_link` never takes
the invalid-link reply branch and always sends the starting-download status
message. -/
theorem C10_invalid_branch_unreachable (L : Libs) (text : List Char)
    (msgId : Nat) (env : Env) (h : startsWith httpStr text = true) :
    (handle_link L text msgId env).invalidReply = false
    ∧ (handle_link L text msgId env).startedDownload = true := by
  obtain ⟨t, rfl⟩ := (startsWith_iff _ _).1 h
  obtain ⟨t2, hstrip⟩ := pyStrip_http t
  have hsw : startsWith httpStr (pyStrip (httpStr ++ t)) = true := by
    rw [hstrip]; exact startsWith_append _ _
  have hkeep := normalize_keeps_http (pyStrip (httpStr ++ t)) hsw
  have hempty : (normalize (pyStrip (httpStr ++ t))).isEmpty = false := by
    cases hu : normalize (pyStrip (httpStr ++ t)) with
    | nil => exact absurd hu hkeep.2
    | cons a l => rfl
  unfold handle_link
  dsimp only
  rw [if_neg (by simp [hempty, hkeep.1])]
  cases env.dl with
  | httpFail s => exact ⟨rfl, rfl⟩
  | unexpected created => exact ⟨rfl, rfl⟩
  | success => cases env.ul <;> exact ⟨rfl, rfl⟩

/-- Witness for C10 at a concrete message text. -/
theorem C10_witness :
    (handle_link libs0 "http://a".data 1
        ⟨DownloadOutcome.success, UploadOutcome.ok⟩).invalidReply = false
    ∧ (handle_link libs0 "http://a".data 1
        ⟨DownloadOutcome.success, UploadOutcome.ok⟩).startedDownload = true :=
  C10_invalid_branch_unreachable libs0 "http://a".data 1
    ⟨DownloadOutcome.success, UploadOutcome.ok⟩ (by decide)

/-- Counterexample to C1 as stated: when the download dies mid-stream after
the destination file was created (any exception other than `DownloadError`,
e.g. a connection reset, striking after `aio_open` created the file), the
handler edits the status message and returns at line 107 without removing
the file — the `finally` on line 126 belongs to the upload `try` block only,
which is never entered. The partial file persists after the handler
completes. -/
theorem C1_cleanup_counterexample :
    (handle_link libs0 "http://example.com/a".data 1
      ⟨DownloadOutcome.unexpected true, UploadOutcome.ok⟩).fileExists = true := by
  rfl

/-- C1 amended: the local file is absent after the handler completes on the
success path, on every upload-failure path (the `finally` cleanup guards
exactly the upload phase), and on the `DownloadError` path (where the file
was never created); it remains on disk exactly when an unexpected download
failure struck after the destination file had been created. -/
theorem C1_cleanup_amended (L : Libs) (text : List Char) (msgId : Nat)
    (env : Env) :
    (handle_link L text msgId env).fileExists = true ↔
      (((normalize (pyStrip text)).isEmpty
          || !(startsWith httpStr (normalize (pyStrip text)))) = false
        ∧ env.dl = DownloadOutcome.unexpected true) := by
  unfold handle_link
  dsimp only
  cases hg : ((normalize (pyStrip text)).isEmpty
      || !(startsWith httpStr (normalize (pyStrip text)))) with
  | true =>
    simp
  | false =>
    rw [if_neg (by exact Bool.false_ne_true)]
    cases env.dl with
    | httpFail s => simp
    | unexpected created => simp
    | success => cases env.ul <;> simp

/-- Counterexample to C7 as stated: `report_progress` catches only
`TelegramRetryAfter`; a `TelegramBadRequest` raised by the status-message
edit escapes to the caller (and in `handle_link` aborts the download through
the generic `except Exception` branch of lines 105-107). -/
theorem C7_report_progress_counterexample :
    report_progress 50 (EditOutcome.badRequest "Bad Request: message to edit not found".data)
        = some (EditOutcome.badRequest "Bad Request: message to edit not found".data)
    ∧ report_progress 50 (EditOutcome.badRequest "Bad Request: message to edit not found".data)
        ≠ none := by
  exact ⟨rfl, by decide⟩

/-- C7 amended: the progress reporter propagates no exception exactly when
the edit succeeds or fails with the rate-limit exception
`TelegramRetryAfter`; any other edit failure propagates to the caller. -/
theorem C7_report_progress_amended (percent : Nat) (edit : EditOutcome) :
    report_progress percent edit = none ↔
      (edit = EditOutcome.ok ∨ edit = EditOutcome.retryAfter) := by
  cases edit <;> simp [report_progress]

/-- Counterexample to C8 as stated: for a Google Drive share link the local
variable `url` is reassigned to the rewritten direct-download URL on line 80
before the caption is built on line 115, so the caption links to the
rewritten URL, not to the original source URL received in the message. -/
theorem C8_caption_counterexample :
    (handle_link libs0
        "https://drive.google.com/file/d/ABC123/view?usp=sharing".data 7
        ⟨DownloadOutcome.success, UploadOutcome.ok⟩).uploadCall
      = some ⟨"/tmp/0123456789ab.bin".data,
          "https://drive.google.com/uc?export=download&id=ABC123".data, 7⟩
    ∧ "https://drive.google.com/uc?export=download&id=ABC123".data
      ≠ pyStrip "https://drive.google.com/file/d/ABC123/view?usp=sharing".data := by
  decide

/-- C8 amended: for every successfully downloaded file the document-upload
call sends the derived local file with a caption linking to the normalized
URL (which equals the original source URL exactly when no share-link
rewriting occurred), replying in-thread to the original message id; the call
is made with these arguments whatever the upload outcome. -/
theorem C8_caption_amended (L : Libs) (text : List Char) (msgId : Nat)
    (ul : UploadOutcome)
    (h : ((normalize (pyStrip text)).isEmpty
        || !(startsWith httpStr (normalize (pyStrip text)))) = false) :
    (handle_link L text msgId ⟨DownloadOutcome.success, ul⟩).uploadCall
      = some ⟨filePathFor L (normalize (pyStrip text)),
          normalize (pyStrip text), msgId⟩ := by
  unfold handle_link
  dsimp only
  rw [if_neg (by simp [h])]
  cases ul <;> rfl

/-- Witness for C8 (amended) at a concrete plain link. -/
theorem C8_caption_witness :
    (handle_link libs0 "http://x".data 3
        ⟨DownloadOutcome.success, UploadOutcome.ok⟩).uploadCall
      = some ⟨filePathFor libs0 (normalize (pyStrip "http://x".data)),
          normalize (pyStrip "http://x".data), 3⟩ :=
  C8_caption_amended libs0 "http://x".data 3 UploadOutcome.ok (by decide)

/-- C9: the destination-filename derivation is a deterministic function of
the normalized URL — equal URLs give equal names; the name is the first 12
hex characters of the hash digest of the URL followed by the extension
guessed from the URL's inferred content type; when type inference and the
octet-stream fallback both fail the generic `.bin` extension is used; and
the handler places the file under `TMP_DIR` with exactly this name. -/
theorem C9_deriveName_deterministic :
    (∀ (L : Libs) (u v : List Char), u = v → deriveName L u = deriveName L v)
    ∧ (∀ (L : Libs) (u : List Char),
        deriveName L u = (L.md5hex u).take 12
          ++ (L.guessExt ((L.guessType u).getD octetStream)).getD binExt)
    ∧ (∀ (L : Libs) (u : List Char), L.guessType u = none →
        L.guessExt octetStream = none →
        deriveName L u = (L.md5hex u).take 12 ++ binExt)
    ∧ (∀ (L : Libs) (u : List Char),
        filePathFor L u = TMP_DIR ++ '/' :: deriveName L u) := by
  refine ⟨fun L u v h => by rw [h], fun L u => rfl, ?_, fun L u => rfl⟩
  intro L u h1 h2
  simp [deriveName, h1, h2]

/-- Witness for C9 at concrete inputs. -/
theorem C9_deriveName_witness :
    deriveName libs0 "http://a".data = deriveName libs0 "http://a".data
    ∧ deriveName ⟨libs0.md5hex, fun _ => none, fun _ => none⟩ "http://a".data
      = (libs0.md5hex "http://a".data).take 12 ++ binExt :=
  ⟨C9_deriveName_deterministic.1 libs0 "http://a".data "http://a".data rfl,
   C9_deriveName_deterministic.2.2.1 ⟨libs0.md5hex, fun _ => none, fun _ => none⟩
     "http://a".data rfl rfl⟩

/-- Counterexample to C3 as stated: the code raises `DownloadError` whenever
`resp.status != 200`, so a 201 response — a success (2xx) status — also
raises, contradicting "if and only if non-2xx". -/
theorem C3_download_error_counterexample :
    download_file true ⟨201, some 4, [([1, 2], 0)]⟩ = Except.error 201
    ∧ 200 ≤ 201 ∧ 201 < 300 := by
  refine ⟨rfl, by norm_num, by norm_num⟩

/-- C3 amended: the download raises `DownloadError` carrying the HTTP status
code if and only if the status differs from 200 (strictly: not "non-2xx"),
and on such a status it fails identically for every chunk stream — the raise
happens before the destination file is opened or any chunk is written. -/
theorem C3_download_error_amended (hasCb : Bool) (resp : Response) :
    (download_file hasCb resp = Except.error resp.status ↔ resp.status ≠ 200)
    ∧ (resp.status ≠ 200 → ∀ chunks2,
        download_file hasCb ⟨resp.status, resp.content_length, chunks2⟩
          = Except.error resp.status) := by
  constructor
  · constructor
    · intro h hs
      unfold download_file at h
      rw [if_neg (by simp [hs])] at h
      exact Except.noConfusion h
    · intro hs
      unfold download_file
      rw [if_pos hs]
  · intro hs chunks2
    unfold download_file
    dsimp only
    rw [if_pos hs]

/-- Witness for C3 (amended): a 404 response raises `DownloadError` with the
status code 404. -/
theorem C3_download_error_witness :
    download_file true ⟨404, none, [([9], 0)]⟩ = Except.error 404 :=
  (C3_download_error_amended true ⟨404, none, [([9], 0)]⟩).1.mpr (by norm_num)

/-- C4: for a download whose response declares a total size, the percent
values passed to the progress callback are monotonically non-decreasing, and
every invocation after the first happens only when the percent changed since
the previous invocation or at least one second of event-loop time elapsed
since it (`reportRel` between consecutive reports). -/
theorem C4_reports_monotone_throttled (hasCb : Bool) (resp : Response)
    (total : Nat) (s : DlState) (_ht : resp.content_length = some total)
    (hok : download_file hasCb resp = Except.ok s) :
    List.Chain' reportRel s.reports := by
  unfold download_file at hok
  by_cases h200 : resp.status ≠ 200
  · rw [if_pos h200] at hok
    exact Except.noConfusion hok
  · rw [if_neg h200] at hok
    injection hok with h
    subst h
    exact (foldl_inv _ hasCb resp.chunks initState (initState_inv _)).chain

/-- Witness for C4: a 10-byte download with total 10 in two 5-byte chunks
half a second apart reports 50 then 100, a `reportRel`-chained trace. -/
theorem C4_reports_witness :
    List.Chain' reportRel
      (DlState.reports ⟨10, 1/2, 100, [1, 1, 1, 1, 1, 1, 1, 1, 1, 1],
        [(50, 0), (100, 1/2)]⟩) :=
  C4_reports_monotone_throttled true
    ⟨200, some 10, [([1, 1, 1, 1, 1], 0), ([1, 1, 1, 1, 1], 1/2)]⟩ 10
    ⟨10, 1/2, 100, [1, 1, 1, 1, 1, 1, 1, 1, 1, 1], [(50, 0), (100, 1/2)]⟩
    rfl
    (by norm_num [download_file, List.foldl, processChunk, initState])

/-- C5: when the response declares no content length the total is treated as
unknown (0), the progress callback is never invoked, and every received
chunk is still appended so the destination file holds the whole body. -/
theorem C5_no_total_no_reports (hasCb : Bool) (resp : Response) (s : DlState)
    (h200 : resp.status = 200) (hnone : resp.content_length = none)
    (hok : download_file hasCb resp = Except.ok s) :
    s.reports = [] ∧ s.file = concatBytes resp.chunks := by
  unfold download_file at hok
  rw [if_neg (by simp [h200])] at hok
  injection hok with h
  subst h
  rw [hnone]
  constructor
  · exact foldl_reports_zero hasCb resp.chunks initState
  · rw [foldl_file]
    rfl

/-- Witness for C5: a sizeless 2-byte download writes both bytes and reports
nothing. -/
theorem C5_no_total_witness :
    DlState.reports ⟨2, 0, 0, [3, 4], []⟩ = []
    ∧ DlState.file ⟨2, 0, 0, [3, 4], []⟩ = concatBytes [([3, 4], 0)] :=
  C5_no_total_no_reports true ⟨200, none, [([3, 4], 0)]⟩
    ⟨2, 0, 0, [3, 4], []⟩ rfl rfl rfl

/-- Counterexample to C6 as stated: nothing bounds the received bytes by the
declared total (e.g. a compressed response whose decompressed body exceeds
`Content-Length`), so the computed percent can exceed 100: with total 1 and
a single 2-byte chunk the callback receives 200. -/
theorem C6_percent_range_counterexample :
    download_file true ⟨200, some 1, [([7, 7], 5)]⟩
      = Except.ok ⟨2, 5, 200, [7, 7], [(200, 5)]⟩
    ∧ ¬((200 : Nat) ≤ 100) := by
  constructor
  · norm_num [download_file, List.foldl, processChunk, initState]
  · norm_num

/-- C6 amended: the percents passed to the progress callback are exactly the
`some` entries of the per-chunk trace, in order; a callback invocation made
while processing chunk `i` passes the percent
`floor((cumulative bytes through chunk i) * 100 / total)` in exact integer
arithmetic together with that chunk's clock (so the percent is always ≥ 0
and is the floor formula of the byte count at that very invocation); and
every reported percent lies within 0–100 provided the bytes received do not
exceed the declared total — without that proviso it can exceed 100. -/
theorem C6_percent_formula_amended (hasCb : Bool) (resp : Response)
    (total : Nat) (s : DlState) (ht : resp.content_length = some total)
    (hok : download_file hasCb resp = Except.ok s) :
    s.reports = (chunkReports total hasCb 0 0 0 resp.chunks).reduceOption
    ∧ (∀ i p t, (chunkReports total hasCb 0 0 0 resp.chunks).get? i
          = some (some (p, t)) →
        p = sumLen (resp.chunks.take (i + 1)) * 100 / total
        ∧ ∃ c, resp.chunks.get? i = some c ∧ t = c.2)
    ∧ (0 < total → sumLen resp.chunks ≤ total →
        ∀ pt ∈ s.reports, pt.1 ≤ 100) := by
  unfold download_file at hok
  by_cases h200 : resp.status ≠ 200
  · rw [if_pos h200] at hok
    exact Except.noConfusion hok
  · rw [if_neg h200] at hok
    injection hok with h
    subst h
    rw [ht]
    have hshape := foldl_shape ((some total).getD 0) hasCb resp.chunks
      initState (by intro pt hpt; exact absurd hpt (List.not_mem_nil pt))
    have hdl := foldl_downloaded ((some total).getD 0) hasCb resp.chunks initState
    rw [initState] at hdl
    simp only [Option.getD_some] at hshape hdl ⊢
    refine ⟨?_, ?_, ?_⟩
    · have htr := foldl_reports_trace total hasCb resp.chunks initState
      simpa [initState] using htr
    · intro i p t hget
      obtain ⟨hp, c, hc, hT⟩ := chunkReports_entry total hasCb resp.chunks
        0 0 0 i p t hget
      rw [Nat.zero_add] at hp
      exact ⟨hp, c, hc, hT⟩
    · intro hpos hsum pt hpt
      obtain ⟨d, hd, hp⟩ := hshape pt hpt
      rw [hp]
      have hdt : d ≤ total := by
        refine le_trans ?_ hsum
        rw [← Nat.zero_add (sumLen resp.chunks), ← hdl]
        exact hd
      calc d * 100 / total ≤ total * 100 / total :=
            Nat.div_le_div_right (Nat.mul_le_mul_right 100 hdt)
        _ = 100 := by rw [Nat.mul_div_cancel_left _ hpos]

/-- Witness for C6 (amended): in a 1-byte download with total 10 the report
list is exactly the trace's single entry, whose percent 10 is the floor
formula of the bytes through chunk 0 and whose clock is chunk 0's clock,
within the 0–100 bound. -/
theorem C6_percent_formula_witness :
    DlState.reports ⟨1, 0, 10, [1], [(10, 0)]⟩
        = (chunkReports 10 true 0 0 0 [([1], (0 : ℚ))]).reduceOption
    ∧ ((10 : Nat) = sumLen ([([1], (0 : ℚ))].take 1) * 100 / 10
        ∧ ∃ c, [([1], (0 : ℚ))].get? 0 = some c ∧ (0 : ℚ) = c.2)
    ∧ (10 : Nat) ≤ 100 :=
  ⟨(C6_percent_formula_amended true ⟨200, some 10, [([1], 0)]⟩ 10
        ⟨1, 0, 10, [1], [(10, 0)]⟩ rfl
        (by norm_num [download_file, List.foldl, processChunk, initState])).1,
   (C6_percent_formula_amended true ⟨200, some 10, [([1], 0)]⟩ 10
        ⟨1, 0, 10, [1], [(10, 0)]⟩ rfl
        (by norm_num [download_file, List.foldl, processChunk, initState])).2.1
      0 10 0 (by norm_num [chunkReports]),
   (C6_percent_formula_amended true ⟨200, some 10, [([1], 0)]⟩ 10
        ⟨1, 0, 10, [1], [(10, 0)]⟩ rfl
        (by norm_num [download_file, List.foldl, processChunk, initState])).2.2
      (by norm_num) (by norm_num [sumLen]) (10, 0) (by simp)⟩

end Bot
